import Mathlib

/-!
Verification of the deepfake-detection pipeline of this repository:
the frame sampler (`src/src/utils/frameExtractor.ts`) and the
classification / aggregation edge function
(`src/supabase/functions/analyze-video/index.ts`).

Numeric values (JS numbers) are modelled as rationals `ℚ`; JSON payloads
whose parse may fail are modelled with `Option`; thrown errors with
`Except`.
-/

/-! ## Frame sampler (`src/src/utils/frameExtractor.ts`) -/

/-- Function `getRecommendedFrameCount` of `frameExtractor.ts` (lines 121-127):
stepwise map from video duration in seconds to a frame count. -/
def getRecommendedFrameCount (durationSeconds : ℚ) : Nat :=
  if durationSeconds ≤ 10 then 5
  else if durationSeconds ≤ 30 then 8
  else if durationSeconds ≤ 60 then 10
  else if durationSeconds ≤ 180 then 12
  else 15

/-- The sampling timestamps of `extractFramesFromVideo` (lines 37-43):
`frameInterval = duration / (maxFrames + 1)` and the loop pushes
`frameInterval * i` for `i = 1 .. maxFrames`. -/
def frameTimestamps (duration : ℚ) (maxFrames : Nat) : List ℚ :=
  (List.range maxFrames).map
    (fun (i : Nat) => duration / ((maxFrames : ℚ) + 1) * ((i : ℚ) + 1))

/-- Canvas width of `extractFramesFromVideo` (line 46):
`canvas.width = Math.min(video.videoWidth, 1280)`. -/
def canvasWidth (videoWidth : ℚ) : ℚ :=
  min videoWidth 1280

/-- Canvas height of `extractFramesFromVideo` (lines 47-50):
`canvas.height = Math.min(video.videoHeight, (canvas.width / video.videoWidth) * video.videoHeight)`. -/
def canvasHeight (videoWidth videoHeight : ℚ) : ℚ :=
  min videoHeight (canvasWidth videoWidth / videoWidth * videoHeight)

/-! ### Sampling-policy properties -/

/-- C6: the stepwise thresholds, the value set, and monotonicity. -/
theorem getRecommendedFrameCount_spec (d : ℚ) (hd : 0 ≤ d) :
    ((d ≤ 10 → getRecommendedFrameCount d = 5) ∧
     (10 < d → d ≤ 30 → getRecommendedFrameCount d = 8) ∧
     (30 < d → d ≤ 60 → getRecommendedFrameCount d = 10) ∧
     (60 < d → d ≤ 180 → getRecommendedFrameCount d = 12) ∧
     (180 < d → getRecommendedFrameCount d = 15)) ∧
    getRecommendedFrameCount d ∈ ([5, 8, 10, 12, 15] : List Nat) ∧
    ∀ d₂ : ℚ, d ≤ d₂ → getRecommendedFrameCount d ≤ getRecommendedFrameCount d₂ := by
  refine ⟨⟨?_, ?_, ?_, ?_, ?_⟩, ?_, ?_⟩ <;>
    first
      | (intro h₁
         first
           | (intro h₂; simp only [getRecommendedFrameCount]; split_ifs <;> first | rfl | linarith)
           | (simp only [getRecommendedFrameCount]; split_ifs <;> first | rfl | linarith))
      | (simp only [getRecommendedFrameCount]; split_ifs <;> simp)
      | (intro d₂ h₁₂
         simp only [getRecommendedFrameCount]
         split_ifs <;> first | norm_num | linarith)

theorem getRecommendedFrameCount_spec_witness :
    (0 : ℚ) ≤ 45 ∧ getRecommendedFrameCount 45 = 10 ∧
      getRecommendedFrameCount 45 ≤ getRecommendedFrameCount 200 := by
  have h := getRecommendedFrameCount_spec 45 (by norm_num)
  exact ⟨by norm_num, h.1.2.2.1 (by norm_num) (by norm_num), h.2.2 200 (by norm_num)⟩

/-! ### Frame-sampling timestamp properties -/

theorem frameTimestamps_length (d : ℚ) (m : Nat) :
    (frameTimestamps d m).length = m := by
  rw [frameTimestamps, List.length_map, List.length_range]

theorem frameTimestamps_get (d : ℚ) (m k : Nat)
    (hk : k < (frameTimestamps d m).length) :
    (frameTimestamps d m).get ⟨k, hk⟩ = d / ((m : ℚ) + 1) * ((k : ℚ) + 1) := by
  simp only [frameTimestamps, List.get_eq_getElem, List.getElem_map,
    List.getElem_range]

/-- C7: for positive duration and frame count, there are `maxFrames`
timestamps, the k-th (0-based) equals `duration/(maxFrames+1) * (k+1)`,
the sequence is strictly increasing, and each timestamp lies strictly
between `0` and `duration`. -/
theorem frameTimestamps_spec (d : ℚ) (m : Nat) (hd : 0 < d) (hm : 0 < m) :
    (frameTimestamps d m).length = m ∧
    (∀ k (hk : k < (frameTimestamps d m).length),
      (frameTimestamps d m).get ⟨k, hk⟩ = d / ((m : ℚ) + 1) * ((k : ℚ) + 1)) ∧
    (frameTimestamps d m).Pairwise (· < ·) ∧
    (∀ t ∈ frameTimestamps d m, 0 < t ∧ t < d) := by
  have hpos : 0 < d / ((m : ℚ) + 1) := by positivity
  refine ⟨frameTimestamps_length d m, fun k hk => frameTimestamps_get d m k hk, ?_, ?_⟩
  · rw [List.pairwise_iff_get]
    intro i j hij
    rw [frameTimestamps_get d m i i.isLt, frameTimestamps_get d m j j.isLt]
    have hij2 : ((i : Nat) : ℚ) + 1 < ((j : Nat) : ℚ) + 1 := by
      have : (i : Nat) < (j : Nat) := hij
      linarith [(Nat.cast_lt (α := ℚ)).mpr this]
    exact mul_lt_mul_of_pos_left hij2 hpos
  · intro t ht
    simp only [frameTimestamps, List.mem_map, List.mem_range] at ht
    obtain ⟨k, hk, rfl⟩ := ht
    constructor
    · positivity
    · have hlt : ((k : ℚ) + 1) < ((m : ℚ) + 1) := by
        have := (Nat.cast_lt (α := ℚ)).mpr hk
        linarith
      rw [div_mul_eq_mul_div, div_lt_iff₀ (by positivity)]
      nlinarith

theorem frameTimestamps_spec_witness :
    (0 : ℚ) < 10 ∧ (0 : Nat) < 4 ∧
      (frameTimestamps 10 4).Pairwise (· < ·) ∧
      ∀ t ∈ frameTimestamps 10 4, 0 < t ∧ t < 10 := by
  have h := frameTimestamps_spec 10 4 (by norm_num) (by norm_num)
  exact ⟨by norm_num, by norm_num, h.2.2.1, h.2.2.2⟩

/-! ### Canvas-dimension properties -/

/-- C8 as stated is false: only the width is capped at 1280. A portrait
720×1920 source yields an output of 720×1920, whose larger dimension is
1920 > 1280. -/
theorem canvas_cap_counterexample :
    (0 : ℚ) < 720 ∧ (0 : ℚ) < 1920 ∧
    canvasWidth 720 = 720 ∧ canvasHeight 720 1920 = 1920 ∧
    ¬ max (canvasWidth 720) (canvasHeight 720 1920) ≤ 1280 := by
  refine ⟨by norm_num, by norm_num, ?_, ?_, ?_⟩ <;>
    simp [canvasWidth, canvasHeight] <;> norm_num

/-- C8 amended: the output width is capped at 1280 and the aspect ratio
is preserved (`height/width` unchanged, stated cross-multiplied); the
output height is not capped below 1280 in general. -/
theorem canvas_dims_spec (w h : ℚ) (hw : 0 < w) (hh : 0 < h) :
    canvasWidth w ≤ 1280 ∧ 0 < canvasWidth w ∧ 0 < canvasHeight w h ∧
    canvasHeight w h * w = h * canvasWidth w := by
  rcases le_or_lt w 1280 with hcase | hcase
  · have hcw : canvasWidth w = w := min_eq_left hcase
    have hch : canvasHeight w h = h := by
      simp only [canvasHeight, hcw]
      rw [div_self (ne_of_gt hw), one_mul, min_self]
    exact ⟨by rw [hcw]; exact hcase, by rw [hcw]; exact hw,
      by rw [hch]; exact hh, by rw [hcw, hch]⟩
  · have hcw : canvasWidth w = 1280 := min_eq_right (le_of_lt hcase)
    have hle : 1280 / w * h ≤ h := by
      have h1 : (1280 : ℚ) / w < 1 := (div_lt_one hw).mpr hcase
      nlinarith
    have hch : canvasHeight w h = 1280 / w * h := by
      simp only [canvasHeight, hcw]
      exact min_eq_right hle
    refine ⟨le_of_eq hcw, by rw [hcw]; norm_num, ?_, ?_⟩
    · rw [hch]; positivity
    · rw [hcw, hch]; field_simp; ring

theorem canvas_dims_spec_witness :
    (0 : ℚ) < 1920 ∧ (0 : ℚ) < 1080 ∧
      canvasWidth 1920 ≤ 1280 ∧
      canvasHeight 1920 1080 * 1920 = 1080 * canvasWidth 1920 := by
  have h := canvas_dims_spec 1920 1080 (by norm_num) (by norm_num)
  exact ⟨by norm_num, by norm_num, h.1, h.2.2.2⟩

/-! ## Classification edge function (`src/supabase/functions/analyze-video/index.ts`)

JS numbers are modelled as `ℚ`, thrown errors as `Except.error`, the
possibly-failing `JSON.parse` of the oracle reply as an `Option`.
`processingTime` is wall-clock time and is not modelled. -/

/-- The `FrameAnalysis` interface of `index.ts` (lines 8-13). -/
structure FrameAnalysis where
  frameIndex : Nat
  isArtificial : Bool
  confidence : ℚ
  issues : List String
deriving Repr, DecidableEq

/-- The return type of `analyzeFrame`:
`FrameAnalysis & { faceScore; lightingScore; artifactScore; qualityScore }`. -/
structure FullAnalysis extends FrameAnalysis where
  faceScore : ℚ
  lightingScore : ℚ
  artifactScore : ℚ
  qualityScore : ℚ
deriving Repr, DecidableEq

/-- The verdict strings `"real" | "ai-generated"` of the `AnalysisResult`
interface. -/
inductive Verdict where
  | real
  | aiGenerated
deriving Repr, DecidableEq

/-- The `details` object of the `AnalysisResult` interface (lines 17-22). -/
structure AnalysisDetails where
  faceConsistency : ℚ
  temporalCoherence : ℚ
  artifactScore : ℚ
  compressionAnalysis : ℚ
deriving Repr, DecidableEq

/-- The `AnalysisResult` interface (lines 15-27), minus the wall-clock
`processingTime` field. -/
structure AnalysisResult where
  confidence : ℚ
  verdict : Verdict
  details : AnalysisDetails
  framesAnalyzed : Nat
  frameAnalyses : List FrameAnalysis
deriving Repr, DecidableEq

/-- The JSON object produced by `JSON.parse` of the oracle reply; each
field may be absent (`undefined` ↦ `none`). -/
structure ParsedAnalysis where
  isArtificial : Option Bool
  confidence : Option ℚ
  faceScore : Option ℚ
  lightingScore : Option ℚ
  artifactScore : Option ℚ
  qualityScore : Option ℚ
  issues : Option (List String)
deriving Repr, DecidableEq

/-- JS `x || d` for a possibly-absent number field: `undefined` and the
falsy number `0` both fall through to the default. -/
def jsOrNum (x : Option ℚ) (d : ℚ) : ℚ :=
  match x with
  | none => d
  | some v => if v = 0 then d else v

/-- JS `b || d` for a possibly-absent boolean field (`false` is falsy). -/
def jsOrBool (x : Option Bool) (d : Bool) : Bool :=
  match x with
  | none => d
  | some b => b || d

/-- JS `xs || d` for a possibly-absent array field: every array (even
`[]`) is truthy, so a present array is returned unchanged. -/
def jsOrList (x : Option (List String)) (d : List String) : List String :=
  x.getD d

/-- The neutral analysis returned when parsing the oracle reply fails
(`index.ts` lines 114-124). -/
def neutralAnalysis (frameIndex : Nat) : FullAnalysis :=
  { frameIndex := frameIndex
    isArtificial := false
    confidence := 0.5
    issues := ["Unable to analyze frame"]
    faceScore := 0.5
    lightingScore := 0.5
    artifactScore := 0.5
    qualityScore := 0.5 }

/-- An oracle reply as observed by `analyzeFrame`: the HTTP success flag
and status of `fetch`, and the outcome of stripping code fences from
`choices[0].message.content` and running `JSON.parse` on it
(`none` = `JSON.parse` threw). -/
structure OracleResponse where
  ok : Bool
  status : Nat
  parsed : Option ParsedAnalysis
deriving Repr, DecidableEq

/-- Lines 96-125 of `analyzeFrame`: build the `FullAnalysis` from a reply
that passed the HTTP-status check, coercing each falsy field to its
default and falling back to `neutralAnalysis` when the parse failed. -/
def parseFrameAnalysis (frameIndex : Nat) (parsed : Option ParsedAnalysis) :
    FullAnalysis :=
  match parsed with
  | some analysis =>
      { frameIndex := frameIndex
        isArtificial := jsOrBool analysis.isArtificial false
        confidence := jsOrNum analysis.confidence 0.5
        issues := jsOrList analysis.issues []
        faceScore := jsOrNum analysis.faceScore 0.5
        lightingScore := jsOrNum analysis.lightingScore 0.5
        artifactScore := jsOrNum analysis.artifactScore 0.5
        qualityScore := jsOrNum analysis.qualityScore 0.5 }
  | none => neutralAnalysis frameIndex

/-- Function `analyzeFrame` (lines 55-126): a non-success HTTP status throws
(`Except.error`); otherwise the reply body is parsed per
`parseFrameAnalysis`. -/
def analyzeFrame (frameIndex : Nat) (resp : OracleResponse) :
    Except String FullAnalysis :=
  if resp.ok then
    Except.ok (parseFrameAnalysis frameIndex resp.parsed)
  else
    Except.error ("AI gateway error: " ++ toString resp.status)

/-- Line 156 of `serve`: the concurrency bound of the batch loop. -/
def BATCH_SIZE : Nat := 3

/-- Line 159-161, `batch.map((frame, idx) => analyzeFrame(frame, i + idx, ...))`:
the calls of one batch, each with its absolute frame index. -/
def analyzeBatch (i : Nat) : List OracleResponse → List (Except String FullAnalysis)
  | [] => []
  | r :: rs => analyzeFrame i r :: analyzeBatch (i + 1) rs

/-- Model of `Promise.all` over the (already settled) calls of one batch: the
batch fails iff some call failed, and succeeds with the results in call
order. -/
def collectBatch {ε α : Type} : List (Except ε α) → Except ε (List α)
  | [] => Except.ok []
  | x :: xs =>
    match x with
    | Except.error e => Except.error e
    | Except.ok a =>
      match collectBatch xs with
      | Except.error e => Except.error e
      | Except.ok as => Except.ok (a :: as)

/-- The batch loop of `serve` (lines 155-162): slice off `BATCH_SIZE`
frames, run the batch, push its results, repeat from index
`i + BATCH_SIZE`; a failed batch aborts the loop. -/
def classifyLoop (i : Nat) (frames : List OracleResponse) :
    Except String (List FullAnalysis) :=
  match frames with
  | [] => Except.ok []
  | r :: rs =>
    match collectBatch (analyzeBatch i ((r :: rs).take BATCH_SIZE)) with
    | Except.error e => Except.error e
    | Except.ok batchResults =>
      match classifyLoop (i + BATCH_SIZE) ((r :: rs).drop BATCH_SIZE) with
      | Except.error e => Except.error e
      | Except.ok rest => Except.ok (batchResults ++ rest)
termination_by frames.length
decreasing_by simp [BATCH_SIZE]; omega

/-- The full classification phase: `allAnalyses` after the loop of
lines 155-162, starting at `i = 0`. -/
def classifyAll (frames : List OracleResponse) :
    Except String (List FullAnalysis) :=
  classifyLoop 0 frames

/-- Line 165, `allAnalyses.filter((a) => a.isArtificial).length`. -/
def artificialCount (l : List FullAnalysis) : Nat :=
  (l.filter (fun a => a.isArtificial)).length

/-- Lines 166-170, `allAnalyses.reduce((sum, a) => sum + f(a), 0) / allAnalyses.length`. -/
def avgOf (l : List FullAnalysis) (f : FullAnalysis → ℚ) : ℚ :=
  l.foldl (fun sum a => sum + f a) 0 / (l.length : ℚ)

/-- Line 173 of `serve`: `artificialCount > frames.length / 2` (strict
majority, over JS numbers). -/
def isAIGenerated (l : List FullAnalysis) (nFrames : Nat) : Bool :=
  decide ((artificialCount l : ℚ) > (nFrames : ℚ) / 2)

/-- Lines 176-178 of `serve`: the raw (pre-clamp) overall confidence. -/
def overallConfidence (l : List FullAnalysis) (nFrames : Nat) : ℚ :=
  if isAIGenerated l nFrames then
    ((artificialCount l : ℚ) / (nFrames : ℚ)) * avgOf l (fun a => a.confidence)
  else
    (((nFrames : ℚ) - (artificialCount l : ℚ)) / (nFrames : ℚ)) *
      avgOf l (fun a => a.confidence)

/-- The aggregation of `serve` (lines 164-199). `nFrames` is
`frames.length`; at this point in `serve` it equals
`allAnalyses.length`. -/
def aggregate (allAnalyses : List FullAnalysis) (nFrames : Nat) :
    AnalysisResult :=
  { confidence := min 0.99 (max 0.5 (overallConfidence allAnalyses nFrames))
    verdict := if isAIGenerated allAnalyses nFrames then Verdict.aiGenerated
               else Verdict.real
    details :=
      { faceConsistency := avgOf allAnalyses (fun a => a.faceScore)
        temporalCoherence := avgOf allAnalyses (fun a => a.lightingScore)
        artifactScore := avgOf allAnalyses (fun a => a.artifactScore)
        compressionAnalysis := avgOf allAnalyses (fun a => a.qualityScore) }
    framesAnalyzed := nFrames
    frameAnalyses := allAnalyses.map (fun a => a.toFrameAnalysis) }

/-- The success path of `serve` (lines 143-199) for a non-empty `frames`
array: classify every frame batch-by-batch, then aggregate; a thrown
transport error escapes to the catch block, so no `AnalysisResult` is
built. (Requests with a missing or empty `frames` array are answered
with a 400 before this point.) -/
def serveAnalysis (frames : List OracleResponse) :
    Except String AnalysisResult :=
  match classifyAll frames with
  | Except.error e => Except.error e
  | Except.ok allAnalyses => Except.ok (aggregate allAnalyses frames.length)

/-! ### Helper lemmas about the classification loop and the averages -/

theorem foldl_add_map (f : FullAnalysis → ℚ) (l : List FullAnalysis) (c : ℚ) :
    l.foldl (fun sum a => sum + f a) c = c + (l.map f).sum := by
  induction l generalizing c with
  | nil => simp
  | cons a l ih => simp [ih, add_assoc]

theorem avgOf_eq (l : List FullAnalysis) (f : FullAnalysis → ℚ) :
    avgOf l f = (l.map f).sum / (l.length : ℚ) := by
  rw [avgOf, foldl_add_map, zero_add]

theorem avgOf_perm {l l₂ : List FullAnalysis} (h : l.Perm l₂)
    (f : FullAnalysis → ℚ) : avgOf l f = avgOf l₂ f := by
  rw [avgOf_eq, avgOf_eq, (h.map f).sum_eq, h.length_eq]

theorem artificialCount_perm {l l₂ : List FullAnalysis} (h : l.Perm l₂) :
    artificialCount l = artificialCount l₂ := by
  rw [artificialCount, artificialCount,
    (h.filter (fun a => a.isArtificial)).length_eq]

/-- Function `parseFrameAnalysis` always stamps the submitted frame index. -/
theorem parseFrameAnalysis_frameIndex (i : Nat) (p : Option ParsedAnalysis) :
    (parseFrameAnalysis i p).frameIndex = i := by
  cases p <;> rfl

/-- The result list of a fully successful classification pass starting
at offset `i`: each reply is parsed at its own index. -/
def analyzeOkList (i : Nat) : List OracleResponse → List FullAnalysis
  | [] => []
  | r :: rs => parseFrameAnalysis i r.parsed :: analyzeOkList (i + 1) rs

theorem analyzeOkList_length (i : Nat) (l : List OracleResponse) :
    (analyzeOkList i l).length = l.length := by
  induction l generalizing i with
  | nil => rfl
  | cons r rs ih => simp [analyzeOkList, ih]

theorem analyzeOkList_get (i : Nat) (l : List OracleResponse) (k : Nat)
    (hk : k < (analyzeOkList i l).length) (hk2 : k < l.length) :
    (analyzeOkList i l).get ⟨k, hk⟩ =
      parseFrameAnalysis (i + k) (l.get ⟨k, hk2⟩).parsed := by
  induction l generalizing i k with
  | nil => cases hk2
  | cons r rs ih =>
    cases k with
    | zero => simp [analyzeOkList]
    | succ k =>
      have hk2q : k < rs.length := by
        have := hk2
        simp only [List.length_cons] at this
        omega
      have hidx : i + (k + 1) = (i + 1) + k := by omega
      simp only [analyzeOkList, List.get_cons_succ, hidx]
      exact ih (i + 1) k _ hk2q

theorem analyzeOkList_take_drop (n i : Nat) (l : List OracleResponse) :
    analyzeOkList i l =
      analyzeOkList i (l.take n) ++ analyzeOkList (i + n) (l.drop n) := by
  induction n generalizing i l with
  | zero => simp [analyzeOkList]
  | succ n ih =>
    cases l with
    | nil => simp [analyzeOkList]
    | cons r rs =>
      have hidx : i + (n + 1) = (i + 1) + n := by omega
      simp only [List.take_succ_cons, List.drop_succ_cons, analyzeOkList,
        List.cons_append, hidx]
      rw [ih]

/-- A batch whose replies all carry a success status collects to the
parsed analyses, in call order. -/
theorem collectBatch_analyzeBatch_ok (i : Nat) (l : List OracleResponse)
    (h : ∀ r ∈ l, r.ok = true) :
    collectBatch (analyzeBatch i l) = Except.ok (analyzeOkList i l) := by
  induction l generalizing i with
  | nil => rfl
  | cons r rs ih =>
    have hr : r.ok = true := h r (by simp)
    simp only [analyzeBatch, analyzeFrame, hr, if_true, collectBatch]
    rw [ih (i + 1) (fun x hx => h x (by simp [hx]))]
    rfl

/-- A batch containing a transport failure collects to an error. -/
theorem collectBatch_analyzeBatch_error (i : Nat) (l : List OracleResponse)
    (h : ∃ r ∈ l, r.ok = false) :
    ∃ e, collectBatch (analyzeBatch i l) = Except.error e := by
  induction l generalizing i with
  | nil =>
    obtain ⟨r, hr, _⟩ := h
    cases hr
  | cons r rs ih =>
    by_cases hr : r.ok = true
    · obtain ⟨x, hx, hxf⟩ := h
      rcases List.mem_cons.mp hx with rfl | hx2
      · rw [hxf] at hr; cases hr
      · obtain ⟨e, he⟩ := ih (i + 1) ⟨x, hx2, hxf⟩
        refine ⟨e, ?_⟩
        simp only [analyzeBatch, analyzeFrame, hr, if_true, collectBatch, he]
    · rw [Bool.not_eq_true] at hr
      refine ⟨"AI gateway error: " ++ toString r.status, ?_⟩
      simp [analyzeBatch, analyzeFrame, hr, collectBatch]

/-- Fuel-bounded form: a run over frames that all carry a success status
succeeds, batch by batch, with the index-ordered parsed analyses. -/
theorem classifyLoop_ok_aux (n : Nat) :
    ∀ (i : Nat) (frames : List OracleResponse), frames.length ≤ n →
      (∀ r ∈ frames, r.ok = true) →
      classifyLoop i frames = Except.ok (analyzeOkList i frames) := by
  induction n with
  | zero =>
    intro i frames hlen h
    cases frames with
    | nil => rw [classifyLoop]; rfl
    | cons r rs => simp at hlen
  | succ n ih =>
    intro i frames hlen h
    cases frames with
    | nil => rw [classifyLoop]; rfl
    | cons r rs =>
      rw [classifyLoop]
      rw [collectBatch_analyzeBatch_ok i _
        (fun x hx => h x (List.take_subset _ _ hx))]
      rw [ih (i + BATCH_SIZE) ((r :: rs).drop BATCH_SIZE)
        (by simp only [List.length_drop, List.length_cons, BATCH_SIZE] at hlen ⊢; omega)
        (fun x hx => h x (List.drop_subset _ _ hx))]
      rw [analyzeOkList_take_drop BATCH_SIZE i (r :: rs)]

/-- Fuel-bounded form: a transport failure anywhere makes the whole loop
return an error. -/
theorem classifyLoop_error_aux (n : Nat) :
    ∀ (i : Nat) (frames : List OracleResponse), frames.length ≤ n →
      (∃ r ∈ frames, r.ok = false) →
      ∃ e, classifyLoop i frames = Except.error e := by
  induction n with
  | zero =>
    intro i frames hlen h
    cases frames with
    | nil => obtain ⟨r, hr, _⟩ := h; cases hr
    | cons r rs => simp at hlen
  | succ n ih =>
    intro i frames hlen h
    cases frames with
    | nil => obtain ⟨r, hr, _⟩ := h; cases hr
    | cons r rs =>
      obtain ⟨x, hx, hxf⟩ := h
      have hx2 : x ∈ (r :: rs).take BATCH_SIZE ∨ x ∈ (r :: rs).drop BATCH_SIZE := by
        rw [← List.mem_append, List.take_append_drop]
        exact hx
      cases hcb : collectBatch (analyzeBatch i ((r :: rs).take BATCH_SIZE)) with
      | error e => exact ⟨e, by rw [classifyLoop, hcb]⟩
      | ok bs =>
        have hdrop : ∃ y ∈ (r :: rs).drop BATCH_SIZE, y.ok = false := by
          rcases hx2 with htake | hdrop2
          · exfalso
            obtain ⟨e, he⟩ := collectBatch_analyzeBatch_error i _ ⟨x, htake, hxf⟩
            rw [hcb] at he
            exact Except.noConfusion he
          · exact ⟨x, hdrop2, hxf⟩
        obtain ⟨e, he⟩ := ih (i + BATCH_SIZE) ((r :: rs).drop BATCH_SIZE)
          (by simp only [List.length_drop, List.length_cons, BATCH_SIZE] at hlen ⊢; omega)
          hdrop
        exact ⟨e, by rw [classifyLoop, hcb, he]⟩

/-- All replies carry a success status: `classifyAll` returns the parsed
analyses in input order. -/
theorem classifyAll_ok (frames : List OracleResponse)
    (h : ∀ r ∈ frames, r.ok = true) :
    classifyAll frames = Except.ok (analyzeOkList 0 frames) :=
  classifyLoop_ok_aux frames.length 0 frames (le_refl _) h

/-- Some reply has a failing transport status: `classifyAll` errors. -/
theorem classifyAll_error (frames : List OracleResponse)
    (h : ∃ r ∈ frames, r.ok = false) :
    ∃ e, classifyAll frames = Except.error e :=
  classifyLoop_error_aux frames.length 0 frames (le_refl _) h

/-! ### Aggregation properties -/

/-- C1: the aggregated verdict is `aiGenerated` exactly when the
artificial verdicts form a strict majority of the frames analyzed; an
exact tie or a minority yields `real`. -/
theorem verdict_majority_rule (l : List FullAnalysis) (n : Nat)
    (hn : n = l.length) (hne : l ≠ []) :
    ((aggregate l n).verdict = Verdict.aiGenerated ↔
      (artificialCount l : ℚ) > (n : ℚ) / 2) ∧
    ((aggregate l n).verdict = Verdict.real ↔
      (artificialCount l : ℚ) ≤ (n : ℚ) / 2) := by
  by_cases h : (n : ℚ) / 2 < (artificialCount l : ℚ)
  · constructor
    · simp [aggregate, isAIGenerated, gt_iff_lt, h]
    · simp [aggregate, isAIGenerated, h]
  · constructor
    · simp [aggregate, isAIGenerated, gt_iff_lt, h]
    · simp [aggregate, isAIGenerated, h]
      exact not_lt.mp h

/-- A concrete analysis (all scores equal to `c`) used to evaluate the
aggregation theorems on explicit inputs. -/
def sampleAnalysis (idx : Nat) (art : Bool) (c : ℚ) : FullAnalysis :=
  ⟨⟨idx, art, c, []⟩, c, c, c, c⟩

/-- Five verdicts, three artificial. -/
def threeOfFive : List FullAnalysis :=
  [sampleAnalysis 0 true 0.8, sampleAnalysis 1 true 0.8,
   sampleAnalysis 2 true 0.8, sampleAnalysis 3 false 0.8,
   sampleAnalysis 4 false 0.8]

/-- Five verdicts, two artificial. -/
def twoOfFive : List FullAnalysis :=
  [sampleAnalysis 0 true 0.8, sampleAnalysis 1 true 0.8,
   sampleAnalysis 2 false 0.8, sampleAnalysis 3 false 0.8,
   sampleAnalysis 4 false 0.8]

theorem verdict_majority_rule_witness :
    (aggregate threeOfFive 5).verdict = Verdict.aiGenerated ∧
    (aggregate twoOfFive 5).verdict = Verdict.real := by
  constructor
  · apply (verdict_majority_rule threeOfFive 5 rfl (by simp [threeOfFive])).1.mpr
    have hc : artificialCount threeOfFive = 3 := rfl
    rw [hc]
    norm_num
  · apply (verdict_majority_rule twoOfFive 5 rfl (by simp [twoOfFive])).2.mpr
    have hc : artificialCount twoOfFive = 2 := rfl
    rw [hc]
    norm_num

/-- C2: the reported confidence is the raw overall confidence clamped
into `[0.5, 0.99]`, so it always lies in that interval. -/
theorem confidence_clamped (l : List FullAnalysis) (n : Nat)
    (hn : n = l.length) (hne : l ≠ []) :
    (aggregate l n).confidence =
      min 0.99 (max 0.5 (overallConfidence l n)) ∧
    (0.5 : ℚ) ≤ (aggregate l n).confidence ∧
    (aggregate l n).confidence ≤ 0.99 := by
  refine ⟨rfl, ?_, ?_⟩
  · exact le_min (by norm_num) (le_max_left _ _)
  · exact min_le_left _ _

theorem confidence_clamped_witness :
    (0.5 : ℚ) ≤ (aggregate [sampleAnalysis 0 false 0.1] 1).confidence ∧
      (aggregate [sampleAnalysis 0 false 0.1] 1).confidence ≤ 0.99 := by
  have h := confidence_clamped [sampleAnalysis 0 false 0.1] 1 rfl (by simp)
  exact ⟨h.2.1, h.2.2⟩

/-- C3: before the clamp, the overall confidence is the fraction of
agreeing frames times the arithmetic mean of the per-frame confidences:
`(artificialCount/n) * avg` when the verdict is `aiGenerated`, and
`((n - artificialCount)/n) * avg` when it is `real`. -/
theorem raw_confidence_formula (l : List FullAnalysis) (n : Nat)
    (hn : n = l.length) (hne : l ≠ []) :
    ((aggregate l n).verdict = Verdict.aiGenerated →
      overallConfidence l n = ((artificialCount l : ℚ) / (n : ℚ)) *
        ((l.map (fun a => a.confidence)).sum / (l.length : ℚ))) ∧
    ((aggregate l n).verdict = Verdict.real →
      overallConfidence l n = (((n : ℚ) - (artificialCount l : ℚ)) / (n : ℚ)) *
        ((l.map (fun a => a.confidence)).sum / (l.length : ℚ))) := by
  have havg := avgOf_eq l (fun a => a.confidence)
  constructor <;> intro hv
  · cases hb : isAIGenerated l n
    · exfalso
      have hreal : (aggregate l n).verdict = Verdict.real := by
        simp [aggregate, hb]
      rw [hreal] at hv
      exact Verdict.noConfusion hv
    · rw [overallConfidence, hb]
      simp [havg]
  · cases hb : isAIGenerated l n
    · rw [overallConfidence, hb]
      simp [havg]
    · exfalso
      have hai : (aggregate l n).verdict = Verdict.aiGenerated := by
        simp [aggregate, hb]
      rw [hai] at hv
      exact Verdict.noConfusion hv

/-- Five verdicts, four artificial, every confidence 0.9. -/
def fourOfFive : List FullAnalysis :=
  [sampleAnalysis 0 true 0.9, sampleAnalysis 1 true 0.9,
   sampleAnalysis 2 true 0.9, sampleAnalysis 3 true 0.9,
   sampleAnalysis 4 false 0.9]

theorem raw_confidence_formula_witness :
    (aggregate fourOfFive 5).verdict = Verdict.aiGenerated ∧
    overallConfidence fourOfFive 5 = 0.72 ∧
    (aggregate fourOfFive 5).confidence = 0.72 := by
  have hc : artificialCount fourOfFive = 4 := rfl
  have hv : (aggregate fourOfFive 5).verdict = Verdict.aiGenerated := by
    have hb : isAIGenerated fourOfFive 5 = true := by
      rw [isAIGenerated, hc, decide_eq_true_eq]
      norm_num
    simp [aggregate, hb]
  have hraw := (raw_confidence_formula fourOfFive 5 rfl
    (by simp [fourOfFive])).1 hv
  have hsum : (fourOfFive.map (fun a => a.confidence)).sum = 4.5 := by
    norm_num [fourOfFive, sampleAnalysis]
  have hlen : (fourOfFive.length : ℚ) = 5 := rfl
  have hoverall : overallConfidence fourOfFive 5 = 0.72 := by
    rw [hraw, hc, hsum, hlen]
    norm_num
  refine ⟨hv, hoverall, ?_⟩
  have : (aggregate fourOfFive 5).confidence =
      min 0.99 (max 0.5 (overallConfidence fourOfFive 5)) := rfl
  rw [this, hoverall]
  norm_num

/-! ### Error-handling properties -/

/-- C4: when every reply has a success status but the reply at position
`j` cannot be parsed, the batch still succeeds; the verdict at position
`j` is exactly the neutral default, and no frame is lost. -/
theorem parse_failure_neutral (frames : List OracleResponse) (j : Nat)
    (hj : j < frames.length)
    (hok : ∀ r ∈ frames, r.ok = true)
    (hbad : (frames.get ⟨j, hj⟩).parsed = none) :
    ∃ l, classifyAll frames = Except.ok l ∧ l.length = frames.length ∧
      ∃ hl : j < l.length, l.get ⟨j, hl⟩ = neutralAnalysis j := by
  refine ⟨analyzeOkList 0 frames, classifyAll_ok frames hok,
    analyzeOkList_length 0 frames, ?_⟩
  have hl : j < (analyzeOkList 0 frames).length := by
    rw [analyzeOkList_length]
    exact hj
  refine ⟨hl, ?_⟩
  rw [analyzeOkList_get 0 frames j hl hj, hbad]
  simp [parseFrameAnalysis]

/-- A reply carrying a success status whose body fails to parse. -/
def unparseableReply : OracleResponse :=
  { ok := true, status := 200, parsed := none }

/-- A reply carrying a success status with a fully parsed body. -/
def parsedReply : OracleResponse :=
  { ok := true, status := 200
    parsed := some
      { isArtificial := some true, confidence := some 0.9
        faceScore := some 0.3, lightingScore := some 0.4
        artifactScore := some 0.2, qualityScore := some 0.3
        issues := some ["warping"] } }

/-- A reply whose transport failed with HTTP 429. -/
def failedReply : OracleResponse :=
  { ok := false, status := 429, parsed := none }

theorem parse_failure_neutral_witness :
    ∃ l, classifyAll [parsedReply, unparseableReply] = Except.ok l ∧
      l.length = 2 ∧
      ∃ hl : 1 < l.length, l.get ⟨1, hl⟩ = neutralAnalysis 1 := by
  have h := parse_failure_neutral [parsedReply, unparseableReply] 1
    (by norm_num)
    (by
      intro r hr
      rcases List.mem_cons.mp hr with rfl | hr2
      · rfl
      · rcases List.mem_cons.mp hr2 with rfl | hr3
        · rfl
        · cases hr3)
    (by rfl)
  exact h

/-- C5: a transport-level failure on any single call makes the whole
batch fail: `classifyAll` and the `serve` pipeline return an error, and
no `AnalysisResult` (not even a truncated one) is produced. -/
theorem transport_failure_aborts (frames : List OracleResponse)
    (hbad : ∃ r ∈ frames, r.ok = false) :
    (∃ e, classifyAll frames = Except.error e) ∧
    (∃ e, serveAnalysis frames = Except.error e) ∧
    ∀ result, serveAnalysis frames ≠ Except.ok result := by
  obtain ⟨e, he⟩ := classifyAll_error frames hbad
  refine ⟨⟨e, he⟩, ⟨e, by rw [serveAnalysis, he]⟩, ?_⟩
  intro result
  rw [serveAnalysis, he]
  exact fun hcontra => Except.noConfusion hcontra

theorem transport_failure_aborts_witness :
    (∃ e, classifyAll [parsedReply, failedReply, parsedReply] = Except.error e) ∧
    ∀ result, serveAnalysis [parsedReply, failedReply, parsedReply] ≠ Except.ok result := by
  have h := transport_failure_aborts [parsedReply, failedReply, parsedReply]
    ⟨failedReply, by simp, by rfl⟩
  exact ⟨h.1, h.2.2⟩

/-! ### Order-independence of aggregation -/

/-- C9: verdicts are associated by index — in any successful run the
k-th verdict carries frame index k — and the aggregated confidence,
verdict, details and frame count are invariant under any permutation of
the verdict list. -/
theorem order_independent_aggregation (frames : List OracleResponse)
    (l l₂ : List FullAnalysis) (n : Nat) :
    (classifyAll frames = Except.ok l →
      ∀ k (hk : k < l.length), (l.get ⟨k, hk⟩).frameIndex = k) ∧
    (l.Perm l₂ →
      (aggregate l n).confidence = (aggregate l₂ n).confidence ∧
      (aggregate l n).verdict = (aggregate l₂ n).verdict ∧
      (aggregate l n).details = (aggregate l₂ n).details ∧
      (aggregate l n).framesAnalyzed = (aggregate l₂ n).framesAnalyzed) := by
  constructor
  · intro hok k hk
    by_cases hall : ∀ r ∈ frames, r.ok = true
    · have hca := classifyAll_ok frames hall
      rw [hca] at hok
      injection hok with hl
      subst hl
      have hk2 : k < frames.length := by
        rw [analyzeOkList_length] at hk
        exact hk
      rw [analyzeOkList_get 0 frames k hk hk2, parseFrameAnalysis_frameIndex]
      omega
    · exfalso
      push_neg at hall
      obtain ⟨r, hr, hnot⟩ := hall
      have hfalse : r.ok = false := by
        cases hro : r.ok
        · rfl
        · exact absurd hro hnot
      obtain ⟨e, he⟩ := classifyAll_error frames ⟨r, hr, hfalse⟩
      rw [he] at hok
      exact Except.noConfusion hok
  · intro hperm
    have hac := artificialCount_perm hperm
    have hconf := avgOf_perm hperm (fun a => a.confidence)
    have hface := avgOf_perm hperm (fun a => a.faceScore)
    have hlight := avgOf_perm hperm (fun a => a.lightingScore)
    have hart := avgOf_perm hperm (fun a => a.artifactScore)
    have hqual := avgOf_perm hperm (fun a => a.qualityScore)
    have hia : isAIGenerated l n = isAIGenerated l₂ n := by
      rw [isAIGenerated, isAIGenerated, hac]
    have hoc : overallConfidence l n = overallConfidence l₂ n := by
      rw [overallConfidence, overallConfidence, hac, hia, hconf]
    refine ⟨?_, ?_, ?_, rfl⟩
    · simp only [aggregate]
      rw [hoc]
    · simp only [aggregate]
      rw [hia]
    · simp only [aggregate]
      rw [hface, hlight, hart, hqual]

theorem order_independent_aggregation_witness :
    (∃ hk : 0 < (analyzeOkList 0 [parsedReply, unparseableReply]).length,
      ((analyzeOkList 0 [parsedReply, unparseableReply]).get ⟨0, hk⟩).frameIndex = 0) ∧
    (aggregate [sampleAnalysis 0 true 0.9, sampleAnalysis 1 false 0.4] 2).verdict =
      (aggregate [sampleAnalysis 1 false 0.4, sampleAnalysis 0 true 0.9] 2).verdict := by
  constructor
  · have hall : ∀ r ∈ [parsedReply, unparseableReply], r.ok = true := by
      intro r hr
      rcases List.mem_cons.mp hr with rfl | hr2
      · rfl
      · rcases List.mem_cons.mp hr2 with rfl | hr3
        · rfl
        · cases hr3
    have h1 := (order_independent_aggregation [parsedReply, unparseableReply]
      (analyzeOkList 0 [parsedReply, unparseableReply]) [] 0).1
      (classifyAll_ok _ hall)
    have hk : 0 < (analyzeOkList 0 [parsedReply, unparseableReply]).length := by
      rw [analyzeOkList_length]
      norm_num
    exact ⟨hk, h1 0 hk⟩
  · have h2 := (order_independent_aggregation []
      [sampleAnalysis 0 true 0.9, sampleAnalysis 1 false 0.4]
      [sampleAnalysis 1 false 0.4, sampleAnalysis 0 true 0.9] 2).2
      (List.Perm.swap (sampleAnalysis 1 false 0.4) (sampleAnalysis 0 true 0.9) [])
    exact h2.2.1

/-! ### Falsy-field coercion in the reply parser -/

theorem jsOrNum_default (x : Option ℚ) (h : x = none ∨ x = some 0) :
    jsOrNum x 0.5 = 0.5 := by
  rcases h with rfl | rfl <;> simp [jsOrNum]

theorem jsOrNum_ne_zero (x : Option ℚ) : jsOrNum x 0.5 ≠ 0 := by
  cases x with
  | none => norm_num [jsOrNum]
  | some v =>
    simp only [jsOrNum]
    split_ifs with hv
    · norm_num
    · exact hv

/-- C10: every falsy numeric field of a successfully parsed reply (absent
or exactly 0) is coerced to 0.5, an absent `isArtificial` to `false`, an
absent `issues` to `[]`; hence no numeric score of a parsed verdict is
ever exactly 0, and a parsed confidence of 0 yields the very same
verdict as a parsed confidence of 0.5. -/
theorem falsy_field_coercion (i : Nat) (p : ParsedAnalysis) :
    ((p.confidence = none ∨ p.confidence = some 0) →
      (parseFrameAnalysis i (some p)).confidence = 0.5) ∧
    ((p.faceScore = none ∨ p.faceScore = some 0) →
      (parseFrameAnalysis i (some p)).faceScore = 0.5) ∧
    ((p.lightingScore = none ∨ p.lightingScore = some 0) →
      (parseFrameAnalysis i (some p)).lightingScore = 0.5) ∧
    ((p.artifactScore = none ∨ p.artifactScore = some 0) →
      (parseFrameAnalysis i (some p)).artifactScore = 0.5) ∧
    ((p.qualityScore = none ∨ p.qualityScore = some 0) →
      (parseFrameAnalysis i (some p)).qualityScore = 0.5) ∧
    (p.isArtificial = none → (parseFrameAnalysis i (some p)).isArtificial = false) ∧
    (p.issues = none → (parseFrameAnalysis i (some p)).issues = []) ∧
    (parseFrameAnalysis i (some p)).confidence ≠ 0 ∧
    (parseFrameAnalysis i (some p)).faceScore ≠ 0 ∧
    (parseFrameAnalysis i (some p)).lightingScore ≠ 0 ∧
    (parseFrameAnalysis i (some p)).artifactScore ≠ 0 ∧
    (parseFrameAnalysis i (some p)).qualityScore ≠ 0 ∧
    parseFrameAnalysis i (some { p with confidence := some 0 }) =
      parseFrameAnalysis i (some { p with confidence := some 0.5 }) := by
  refine ⟨fun h => jsOrNum_default _ h, fun h => jsOrNum_default _ h,
    fun h => jsOrNum_default _ h, fun h => jsOrNum_default _ h,
    fun h => jsOrNum_default _ h, fun h => ?_, fun h => ?_,
    jsOrNum_ne_zero _, jsOrNum_ne_zero _, jsOrNum_ne_zero _,
    jsOrNum_ne_zero _, jsOrNum_ne_zero _, ?_⟩
  · simp [parseFrameAnalysis, jsOrBool, h]
  · simp [parseFrameAnalysis, jsOrList, h]
  · norm_num [parseFrameAnalysis, jsOrNum]

def sampleParsed : ParsedAnalysis :=
  { isArtificial := none, confidence := some 0
    faceScore := none, lightingScore := some 0.7
    artifactScore := some 0.6, qualityScore := some 0.8
    issues := none }

theorem falsy_field_coercion_witness :
    (sampleParsed.confidence = none ∨ sampleParsed.confidence = some 0) ∧
    (parseFrameAnalysis 3 (some sampleParsed)).confidence = 0.5 ∧
    (parseFrameAnalysis 3 (some sampleParsed)).faceScore = 0.5 ∧
    (parseFrameAnalysis 3 (some sampleParsed)).isArtificial = false ∧
    (parseFrameAnalysis 3 (some sampleParsed)).issues = [] ∧
    (parseFrameAnalysis 3 (some sampleParsed)).qualityScore ≠ 0 := by
  have h := falsy_field_coercion 3 sampleParsed
  exact ⟨Or.inr rfl, h.1 (Or.inr rfl), h.2.1 (Or.inl rfl),
    h.2.2.2.2.2.1 rfl, h.2.2.2.2.2.2.1 rfl, h.2.2.2.2.2.2.2.2.2.2.2.1⟩
